import Mathlib

/-!
Verification development for the hebodan video pipeline.

Shallow embedding of the audio-driven lip-sync analyzer
(`src/utils/audio_analyzer.py`), the character asset store
(`src/utils/character_assets.py`) and the timeline assembly of the
video composer (`src/generators/video_composer.py`).

Conventions of the embedding:
* Python float arithmetic is modelled exactly over `ℚ`.
* A Python runtime error (numpy zero-size reduction, `KeyError`,
  `AttributeError`) is modelled by an `Option` result being `none`.
* The numpy comparison `np.sqrt(m) > threshold` on a nonnegative mean
  square `m` is represented by the exact decidable characterization
  `threshold < 0 ∨ threshold^2 < m`; the bridging lemma
  `rmsGtThreshold_iff_sqrt` below proves this equivalent to the real
  `threshold < Real.sqrt m`.
-/

/-! ## Voice-activity analyzer (`analyze_mouth_states`) -/

/-- `np.abs(samples).max()`: numpy raises `ValueError` on a zero-size
reduction, modelled by `none` for the empty list. -/
def maxAbs : List ℚ → Option ℚ
  | [] => none
  | s :: rest => some ((rest.map (fun x => |x|)).foldl max |s|)

/-- Lines 49-52 of `audio_analyzer.py`: normalize the whole clip by its
peak absolute amplitude; skipped when the peak is `0`. -/
def normalizeSamples (samples : List ℚ) : Option (List ℚ) :=
  match maxAbs samples with
  | none => none
  | some maxAmp =>
      some (if 0 < maxAmp then samples.map (fun s => s / maxAmp) else samples)

/-- Lines 55-56: `duration = n_frames / sample_rate`;
`total_video_frames = math.ceil(duration * fps)`. -/
def totalVideoFrames (n sr fps : ℕ) : ℕ :=
  Nat.ceil (((n : ℚ) / sr) * fps)

/-- Line 61 (and 62): `start = int(i * samples_per_frame)` with
`samples_per_frame = sample_rate / fps`.  Python `int()` truncates toward
zero, i.e. floor on the nonnegative values arising here. -/
def binStart (sr fps i : ℕ) : ℕ :=
  (⌊(i : ℚ) * ((sr : ℚ) / fps)⌋).toNat

/-- `np.mean(frame_samples ** 2)`: the mean square of a bin. -/
def meanSq (l : List ℚ) : ℚ :=
  ((l.map (fun x => x ^ 2)).sum) / l.length

/-- Lines 59-66: the per-video-frame mean-square amplitude.  The source
stores `np.sqrt` of this value; we keep the exact square (see the module
doc comment), with `0` for an empty bin as in `np.zeros`. -/
def rmsSqPerFrame (samples : List ℚ) (sr fps : ℕ) : List ℚ :=
  (List.range (totalVideoFrames samples.length sr fps)).map (fun i =>
    let s := binStart sr fps i
    let e := min (binStart sr fps (i + 1)) samples.length
    if s < e then meanSq ((samples.drop s).take (e - s)) else 0)

/-- The boolean value of `np.sqrt(m) > threshold` for a nonnegative mean
square `m`, in exact rational arithmetic. -/
def rmsGtThreshold (m θ : ℚ) : Bool :=
  decide (θ < 0) || decide (θ ^ 2 < m)

/-- Line 69: `mouth_open = rms_per_frame > threshold` (elementwise). -/
def markOpen (θ : ℚ) (rmsSq : List ℚ) : List Bool :=
  rmsSq.map (fun m => rmsGtThreshold m θ)

/-- Lines 74-82: one step of the chatter-suppression scan, with `c` the
number of frames still forced open by the last block.  When the scan
meets an open frame with no pending force it forces the block
`result[i:min(i+m, len)]` to `True` and resumes right after the block
(`i = end`), which is the same as carrying a countdown of `m - 1` forced
frames; on a closed frame it advances by one.  The slice-assignment view
is recovered by `hysRun_eq_block` below. -/
def hysRun (m : ℕ) : List Bool → ℕ → List Bool
  | [], _ => []
  | _ :: rest, c + 1 => true :: hysRun m rest c
  | b :: rest, 0 =>
      if b then true :: hysRun m rest (m - 1) else false :: hysRun m rest 0

/-- Lines 73-74: the scan starts at `i = 0` with nothing forced. -/
def hysteresis (m : ℕ) (l : List Bool) : List Bool := hysRun m l 0

/-- Lines 71-83: the hysteresis pass is applied only when
`min_open_frames > 1`. -/
def applyHysteresis (m : ℕ) (l : List Bool) : List Bool :=
  if 1 < m then hysteresis m l else l

/-- The thresholded ("raw") open/closed sequence computed from the
normalized sample stream (lines 54-69). -/
def rawOpenOf (ns : List ℚ) (sr fps : ℕ) (θ : ℚ) : List Bool :=
  markOpen θ (rmsSqPerFrame ns sr fps)

/-- `analyze_mouth_states` (lines 28-85) from the decoded mono sample
stream: normalize by the peak, bin, threshold, then chatter-suppress.
`none` models the `ValueError` numpy raises on zero-length audio. -/
def analyze_mouth_states (samples : List ℚ) (sr fps : ℕ) (θ : ℚ) (m : ℕ) :
    Option (List Bool) :=
  match normalizeSamples samples with
  | none => none
  | some ns => some (applyHysteresis m (rawOpenOf ns sr fps θ))

example : analyze_mouth_states [1, 1, 0, 0, 1, 1, 0, 0, 0, 0] 4 2 (3/20) 3
    = some [true, true, true, false, false] := by with_unfolding_all decide

example : analyze_mouth_states [0, 0, 1, 0, 0, 0] 2 2 (3/20) 3
    = some [false, false, true, true, true, false] := by with_unfolding_all decide

example : analyze_mouth_states [] 8 2 (3/20) 2 = none := by with_unfolding_all decide

/-! ### Structural lemmas about the hysteresis scan -/

theorem hysRun_length (m : ℕ) (l : List Bool) (c : ℕ) :
    (hysRun m l c).length = l.length := by
  induction l generalizing c with
  | nil => rfl
  | cons b rest ih =>
    cases c with
    | zero => cases b <;> simp [hysRun, ih]
    | succ c => simp [hysRun, ih]

/-- The slice-assignment view of the scan: `c` pending forced frames are
emitted as `True` and the scan then continues from scratch on the
remaining suffix, exactly as `result[i:end] = True; i = end`. -/
theorem hysRun_eq_block (m : ℕ) (l : List Bool) (c : ℕ) :
    hysRun m l c
      = List.replicate (min c l.length) true ++ hysRun m (l.drop c) 0 := by
  induction l generalizing c with
  | nil => simp [hysRun]
  | cons b rest ih =>
    cases c with
    | zero => simp
    | succ c =>
      show true :: hysRun m rest c = _
      rw [ih c]
      simp [Nat.succ_min_succ, List.replicate_succ]

/-- Every position still covered by the pending forced block is open. -/
theorem hysRun_forced (m : ℕ) (l : List Bool) (c k : ℕ)
    (hk : k < c) (hl : k < l.length) :
    (hysRun m l c)[k]? = some true := by
  induction l generalizing c k with
  | nil => simp at hl
  | cons b rest ih =>
    cases c with
    | zero => omega
    | succ c =>
      cases k with
      | zero => simp [hysRun]
      | succ k =>
        show (true :: hysRun m rest c)[k + 1]? = some true
        rw [List.getElem?_cons_succ]
        exact ih c k (by omega) (by simpa using hl)

/-- The scan never closes a frame that the threshold pass marked open. -/
theorem hysRun_mono (m : ℕ) (l : List Bool) (c k : ℕ)
    (h : l[k]? = some true) :
    (hysRun m l c)[k]? = some true := by
  induction l generalizing c k with
  | nil => simp at h
  | cons b rest ih =>
    cases c with
    | succ c =>
      cases k with
      | zero => simp [hysRun]
      | succ k =>
        show (true :: hysRun m rest c)[k + 1]? = some true
        rw [List.getElem?_cons_succ]
        exact ih c k (by simpa using h)
    | zero =>
      cases k with
      | zero =>
        have hb : b = true := by simpa using h
        subst hb
        simp [hysRun]
      | succ k =>
        have hk : rest[k]? = some true := by simpa using h
        cases b <;> simp [hysRun, ih _ k hk]

/-- Core forcing property of the scan, with the pending counter
generalized: if frame `i` is open after thresholding, no frame within the
previous `m - 1` frames is open, and the initial pending block does not
reach past `i`, then the output keeps frames `i, …, i + m - 1` open
(capped at the end of the sequence). -/
theorem hysRun_force (m : ℕ) (l : List Bool) (c i : ℕ) (hc : c ≤ i)
    (hopen : l[i]? = some true)
    (hprev : ∀ j, j < i → i < j + m → l[j]? = some false) :
    ∀ k, i ≤ k → k < min (i + m) l.length → (hysRun m l c)[k]? = some true := by
  induction l generalizing c i with
  | nil => intro k _ hk; simp at hk
  | cons b rest ih =>
    intro k hik hk
    cases c with
    | succ c =>
      have hi : 1 ≤ i := by omega
      have hk1 : 1 ≤ k := by omega
      show (true :: hysRun m rest c)[k]? = some true
      rw [show k = (k - 1) + 1 by omega, List.getElem?_cons_succ]
      refine ih c (i - 1) (by omega) ?_ ?_ (k - 1) (by omega) ?_
      · rw [show i = (i - 1) + 1 by omega, List.getElem?_cons_succ] at hopen
        exact hopen
      · intro j hj hjm
        have := hprev (j + 1) (by omega) (by omega)
        rwa [List.getElem?_cons_succ] at this
      · simp only [List.length_cons] at hk
        omega
    | zero =>
      cases i with
      | zero =>
        have hb : b = true := by simpa using hopen
        subst hb
        show (true :: hysRun m rest (m - 1))[k]? = some true
        cases k with
        | zero => simp
        | succ k =>
          rw [List.getElem?_cons_succ]
          refine hysRun_forced m rest (m - 1) k ?_ ?_
          · simp only [Nat.zero_add, List.length_cons] at hk
            omega
          · simp only [Nat.zero_add, List.length_cons] at hk
            omega
      | succ i =>
        cases b with
        | false =>
          show (false :: hysRun m rest 0)[k]? = some true
          have hk1 : 1 ≤ k := by omega
          rw [show k = (k - 1) + 1 by omega, List.getElem?_cons_succ]
          refine ih 0 i (by omega) ?_ ?_ (k - 1) (by omega) ?_
          · rwa [List.getElem?_cons_succ] at hopen
          · intro j hj hjm
            have := hprev (j + 1) (by omega) (by omega)
            rwa [List.getElem?_cons_succ] at this
          · simp only [List.length_cons] at hk
            omega
        | true =>
          have hm : m ≤ i + 1 := by
            by_contra hlt
            have := hprev 0 (by omega) (by omega)
            simp at this
          show (true :: hysRun m rest (m - 1))[k]? = some true
          have hk1 : 1 ≤ k := by omega
          rw [show k = (k - 1) + 1 by omega, List.getElem?_cons_succ]
          refine ih (m - 1) i (by omega) ?_ ?_ (k - 1) (by omega) ?_
          · rwa [List.getElem?_cons_succ] at hopen
          · intro j hj hjm
            have := hprev (j + 1) (by omega) (by omega)
            rwa [List.getElem?_cons_succ] at this
          · simp only [List.length_cons] at hk
            omega

theorem applyHysteresis_length (m : ℕ) (l : List Bool) :
    (applyHysteresis m l).length = l.length := by
  unfold applyHysteresis hysteresis
  split
  · exact hysRun_length m l 0
  · rfl

theorem applyHysteresis_mono (m : ℕ) (l : List Bool) (k : ℕ)
    (h : l[k]? = some true) : (applyHysteresis m l)[k]? = some true := by
  unfold applyHysteresis hysteresis
  split
  · exact hysRun_mono m l 0 k h
  · exact h

/-- Forcing property of the full (guarded) hysteresis stage. -/
theorem applyHysteresis_force (m : ℕ) (hm : 1 ≤ m) (l : List Bool) (i : ℕ)
    (hopen : l[i]? = some true)
    (hprev : ∀ j, j < i → i < j + m → l[j]? = some false) :
    ∀ k, i ≤ k → k < min (i + m) l.length →
      (applyHysteresis m l)[k]? = some true := by
  intro k hik hk
  unfold applyHysteresis hysteresis
  split
  · exact hysRun_force m l 0 i (Nat.zero_le i) hopen hprev k hik hk
  · have hm1 : m = 1 := by omega
    subst hm1
    have : k = i := by omega
    subst this
    exact hopen

/-! ### Supporting lemmas about the analyzer stages -/

theorem normalizeSamples_some (samples : List ℚ) (hne : samples ≠ []) :
    ∃ ns, normalizeSamples samples = some ns ∧ ns.length = samples.length := by
  cases samples with
  | nil => exact absurd rfl hne
  | cons s rest =>
    refine ⟨_, rfl, ?_⟩
    split <;> simp

theorem rmsSqPerFrame_length (samples : List ℚ) (sr fps : ℕ) :
    (rmsSqPerFrame samples sr fps).length
      = totalVideoFrames samples.length sr fps := by
  simp [rmsSqPerFrame]

theorem rawOpenOf_length (ns : List ℚ) (sr fps : ℕ) (θ : ℚ) :
    (rawOpenOf ns sr fps θ).length = totalVideoFrames ns.length sr fps := by
  simp [rawOpenOf, markOpen, rmsSqPerFrame_length]

theorem meanSq_nonneg (l : List ℚ) : 0 ≤ meanSq l := by
  unfold meanSq
  apply div_nonneg
  · apply List.sum_nonneg
    intro x hx
    simp only [List.mem_map] at hx
    obtain ⟨y, _, rfl⟩ := hx
    positivity
  · positivity

theorem rmsSqPerFrame_mem_nonneg (samples : List ℚ) (sr fps : ℕ) :
    ∀ x ∈ rmsSqPerFrame samples sr fps, 0 ≤ x := by
  intro x hx
  simp only [rmsSqPerFrame, List.mem_map] at hx
  obtain ⟨i, _, rfl⟩ := hx
  split
  · exact meanSq_nonneg _
  · exact le_refl 0

theorem rmsSqPerFrame_getD_nonneg (samples : List ℚ) (sr fps i : ℕ) :
    0 ≤ (rmsSqPerFrame samples sr fps).getD i 0 := by
  rcases lt_or_le i (rmsSqPerFrame samples sr fps).length with h | h
  · rw [List.getD_eq_getElem _ _ h]
    exact rmsSqPerFrame_mem_nonneg samples sr fps _ (List.getElem_mem h)
  · rw [List.getD_eq_default _ _ h]

/-- The rational test `rmsGtThreshold` is exactly the real comparison
`threshold < sqrt(mean square)` that the source performs with
`np.sqrt(...) > threshold`. -/
theorem rmsGtThreshold_iff_sqrt (a θ : ℚ) :
    rmsGtThreshold a θ = true ↔ (θ : ℝ) < Real.sqrt ((a : ℚ) : ℝ) := by
  unfold rmsGtThreshold
  rcases lt_or_le θ 0 with h | h
  · constructor
    · intro _
      calc (θ : ℝ) < 0 := by exact_mod_cast h
        _ ≤ Real.sqrt ((a : ℚ) : ℝ) := Real.sqrt_nonneg _
    · intro _
      simp [h]
  · have hθR : (0 : ℝ) ≤ (θ : ℝ) := by exact_mod_cast h
    rw [Bool.or_eq_true, decide_eq_true_eq, decide_eq_true_eq,
      Real.lt_sqrt hθR]
    constructor
    · rintro (h1 | h1)
      · exact absurd h1 (not_lt.2 h)
      · exact_mod_cast h1
    · intro h1
      right
      exact_mod_cast h1

/-! ### Claims about the analyzer -/

/-- Claim C1, counterexample.  With the waveform whose bins are
loud/quiet/loud/quiet/quiet (4 Hz sample rate, fps 2, threshold 3/20,
`min_open_frames` 3) the thresholded sequence is `[T,F,T,F,F]`: index 2
is a False-to-True transition (frame 1 closed, frame 2 open), yet the
analyzer output `[T,T,T,F,F]` leaves frame 3 closed: the block forced at
frame 0 swallows frame 2, so no block starts there and frames 3 and 4 are
not forced open as the claim demands. -/
theorem claim_C1_counterexample :
    normalizeSamples [1, 1, 0, 0, 1, 1, 0, 0, 0, 0]
        = some [1, 1, 0, 0, 1, 1, 0, 0, 0, 0] ∧
    rawOpenOf [1, 1, 0, 0, 1, 1, 0, 0, 0, 0] 4 2 (3/20)
        = [true, false, true, false, false] ∧
    analyze_mouth_states [1, 1, 0, 0, 1, 1, 0, 0, 0, 0] 4 2 (3/20) 3
        = some [true, true, true, false, false] := by
  with_unfolding_all decide

/-- Claim C1 (amended): for every waveform, whenever frame `i` of the
thresholded sequence is open and no frame among the preceding
`min_open_frames - 1` frames is open (so the scan reaches `i` outside any
forced block; in particular `i` is a False-to-True transition), the
output forces frames `i, …, i + min_open_frames - 1` open (capped at the
end of the sequence), regardless of whether those frames' own RMS exceeds
the threshold, and the scan resumes only after the forced block. -/
theorem claim_C1_theorem (samples : List ℚ) (sr fps : ℕ) (θ : ℚ) (m : ℕ)
    (ns : List ℚ) (hns : normalizeSamples samples = some ns) (hm : 1 ≤ m)
    (i : ℕ) (hopen : (rawOpenOf ns sr fps θ)[i]? = some true)
    (hprev : ∀ j, j < i → i < j + m → (rawOpenOf ns sr fps θ)[j]? = some false) :
    analyze_mouth_states samples sr fps θ m
        = some (applyHysteresis m (rawOpenOf ns sr fps θ)) ∧
    ∀ k, i ≤ k → k < min (i + m) (rawOpenOf ns sr fps θ).length →
      (applyHysteresis m (rawOpenOf ns sr fps θ))[k]? = some true := by
  constructor
  · simp [analyze_mouth_states, hns]
  · exact applyHysteresis_force m hm _ i hopen hprev

/-- Claim C1, witness: one loud bin surrounded by silence with
`min_open_frames = 3` forces three consecutive open frames starting at
the loud bin. -/
theorem claim_C1_witness :
    analyze_mouth_states [0, 0, 1, 0, 0, 0] 2 2 (3/20) 3
        = some (applyHysteresis 3 (rawOpenOf [0, 0, 1, 0, 0, 0] 2 2 (3/20))) ∧
    ∀ k, 2 ≤ k → k < min 5 (rawOpenOf [0, 0, 1, 0, 0, 0] 2 2 (3/20)).length →
      (applyHysteresis 3 (rawOpenOf [0, 0, 1, 0, 0, 0] 2 2 (3/20)))[k]?
        = some true :=
  claim_C1_theorem [0, 0, 1, 0, 0, 0] 2 2 (3/20) 3 [0, 0, 1, 0, 0, 0]
    (by with_unfolding_all decide) (by omega) 2
    (by with_unfolding_all decide)
    (fun j hj hjm => by interval_cases j <;> with_unfolding_all decide)

/-- Claim C2, counterexample: on zero-length audio the analyzer does not
return a zero-length array; `np.abs(samples).max()` is a zero-size
reduction and raises `ValueError` (modelled by `none`). -/
theorem claim_C2_counterexample :
    analyze_mouth_states [] 44100 24 (3/20) 2 = none ∧
    analyze_mouth_states [] 44100 24 (3/20) 2 ≠ some [] := by
  constructor
  · rfl
  · intro h
    simp [analyze_mouth_states, normalizeSamples, maxAbs] at h

/-- Claim C2 (amended): for every non-empty waveform the analyzer
returns an array whose length is exactly `ceil(duration * fps)` with
`duration = sample_count / sample_rate`; the normalized sample stream it
thresholds is produced by `normalizeSamples`, which does not take `fps`,
so varying `fps` changes only the number of bins and never how the
samples themselves are interpreted.  (Zero-length audio instead hits a
zero-size numpy reduction and raises, see the counterexample.) -/
theorem claim_C2_theorem (samples : List ℚ) (sr fps : ℕ) (θ : ℚ) (m : ℕ)
    (hne : samples ≠ []) :
    ∃ ns, normalizeSamples samples = some ns ∧
      analyze_mouth_states samples sr fps θ m
          = some (applyHysteresis m (rawOpenOf ns sr fps θ)) ∧
      (applyHysteresis m (rawOpenOf ns sr fps θ)).length
          = Nat.ceil (((samples.length : ℚ) / sr) * fps) := by
  obtain ⟨ns, hns, hlen⟩ := normalizeSamples_some samples hne
  refine ⟨ns, hns, by simp [analyze_mouth_states, hns], ?_⟩
  rw [applyHysteresis_length, rawOpenOf_length, hlen]
  rfl

/-- Claim C2, witness at a concrete two-sample clip. -/
theorem claim_C2_witness :
    ∃ ns, normalizeSamples [1, 0] = some ns ∧
      analyze_mouth_states [1, 0] 4 2 (3/20) 2
          = some (applyHysteresis 2 (rawOpenOf ns 4 2 (3/20))) ∧
      (applyHysteresis 2 (rawOpenOf ns 4 2 (3/20))).length
          = Nat.ceil ((((2 : ℕ) : ℚ) / 4) * 2) :=
  claim_C2_theorem [1, 0] 4 2 (3/20) 2 (by simp)

/-- Modelled from the claim's words (claim C3, spec §4.1 step 4): a bin
boundary at sample index `round(frame_index * samples_per_frame)`.  The
source instead truncates (`int(...)`), see `binStart`. -/
def binStartRoundSpec (sr fps i : ℕ) : ℕ :=
  (round ((i : ℚ) * ((sr : ℚ) / fps))).toNat

/-- Modelled from the claim's words: per-bin mean squares with the
round-based boundaries of `binStartRoundSpec`. -/
def rmsSqPerFrameRoundSpec (samples : List ℚ) (sr fps : ℕ) : List ℚ :=
  (List.range (totalVideoFrames samples.length sr fps)).map (fun i =>
    let s := binStartRoundSpec sr fps i
    let e := min (binStartRoundSpec sr fps (i + 1)) samples.length
    if s < e then meanSq ((samples.drop s).take (e - s)) else 0)

/-- Claim C3, counterexample.  At sample rate 3 and fps 2,
`samples_per_frame = 1.5`: the source's boundary for frame 1 is
`int(1.5) = 1` while the claim's is `round(1.5) = 2`.  On the waveform
`[0, 1, 0]` (already peak-normalized) the code therefore classifies the
two frames (closed, open), whereas round-based binning would classify
them (open, closed): the bin boundaries do not lie at
`round(frame_index * samples_per_frame)`. -/
theorem claim_C3_counterexample :
    binStart 3 2 1 = 1 ∧ binStartRoundSpec 3 2 1 = 2 ∧
    normalizeSamples [0, 1, 0] = some [0, 1, 0] ∧
    analyze_mouth_states [0, 1, 0] 3 2 (3/20) 1 = some [false, true] ∧
    markOpen (3/20) (rmsSqPerFrameRoundSpec [0, 1, 0] 3 2)
        = [true, false] := by
  with_unfolding_all decide

/-- Claim C3 (amended): the (normalized, mono) sample stream is
partitioned into `ceil(duration * fps)` bins whose boundaries lie at
sample index `int(frame_index * samples_per_frame)` — truncation, not
rounding — with `samples_per_frame = sample_rate / fps`; the boundaries
start at 0, are monotone, and the final boundary is clamped to the end
of the samples (it reaches past the last sample), and the per-frame
value is the mean square over `samples[start:end]`. -/
theorem claim_C3_theorem (samples : List ℚ) (sr fps : ℕ)
    (hsr : 1 ≤ sr) (hfps : 1 ≤ fps) :
    (rmsSqPerFrame samples sr fps).length
        = totalVideoFrames samples.length sr fps ∧
    binStart sr fps 0 = 0 ∧
    (∀ i j, i ≤ j → binStart sr fps i ≤ binStart sr fps j) ∧
    samples.length
        ≤ binStart sr fps (totalVideoFrames samples.length sr fps) ∧
    (∀ i, i < totalVideoFrames samples.length sr fps →
      (rmsSqPerFrame samples sr fps)[i]? = some (
        if binStart sr fps i
            < min (binStart sr fps (i + 1)) samples.length then
          meanSq ((samples.drop (binStart sr fps i)).take
            (min (binStart sr fps (i + 1)) samples.length
              - binStart sr fps i))
        else 0)) := by
  refine ⟨rmsSqPerFrame_length samples sr fps, by simp [binStart],
    ?_, ?_, ?_⟩
  · intro i j hij
    have h1 : (i : ℚ) * ((sr : ℚ) / fps) ≤ (j : ℚ) * ((sr : ℚ) / fps) := by
      apply mul_le_mul_of_nonneg_right
      · exact_mod_cast hij
      · positivity
    exact Int.toNat_le_toNat (Int.floor_le_floor h1)
  · have hsrQ : ((sr : ℚ)) ≠ 0 := Nat.cast_ne_zero.mpr (by omega)
    have hfpsQ : ((fps : ℚ)) ≠ 0 := Nat.cast_ne_zero.mpr (by omega)
    set n := samples.length with hn
    set T := totalVideoFrames n sr fps with hT
    have hx : ((n : ℚ) / sr) * fps ≤ (T : ℚ) := by
      simpa [hT, totalVideoFrames] using Nat.le_ceil (((n : ℚ) / sr) * fps)
    have h2 : (n : ℚ) ≤ (T : ℚ) * ((sr : ℚ) / fps) := by
      have hmul := mul_le_mul_of_nonneg_right hx
        (by positivity : (0 : ℚ) ≤ (sr : ℚ) / fps)
      calc (n : ℚ) = ((n : ℚ) / sr) * fps * ((sr : ℚ) / fps) := by
            field_simp
        _ ≤ (T : ℚ) * ((sr : ℚ) / fps) := hmul
    have h3 : (n : ℤ) ≤ ⌊(T : ℚ) * ((sr : ℚ) / fps)⌋ := by
      rw [Int.le_floor]
      exact_mod_cast h2
    have h4 := Int.toNat_le_toNat h3
    simpa [binStart] using h4
  · intro i hi
    unfold rmsSqPerFrame
    rw [List.getElem?_map, List.getElem?_range hi]
    rfl

/-- Claim C3, witness: the first two amended facts at sample rate 3 and
fps 2 on a three-sample clip. -/
theorem claim_C3_witness :
    (rmsSqPerFrame [0, 1, 0] 3 2).length = totalVideoFrames 3 3 2 ∧
    binStart 3 2 0 = 0 := by
  have h := claim_C3_theorem [0, 1, 0] 3 2 (by omega) (by omega)
  exact ⟨h.1, h.2.1⟩

/-- Claim C4: inside `analyze_mouth_states` a frame is classified
mouth-open iff its bin's RMS — the real square root of the stored mean
square — strictly exceeds the threshold; a bin whose RMS equals the
threshold exactly (mean square = threshold²) is classified closed; and
the hysteresis pass only ever adds open frames, never removes one. -/
theorem claim_C4_theorem (ns : List ℚ) (sr fps : ℕ) (θ : ℚ) (m : ℕ)
    (hθ : 0 < θ) (i : ℕ) (hi : i < (rmsSqPerFrame ns sr fps).length) :
    ((rawOpenOf ns sr fps θ)[i]?
        = some (rmsGtThreshold ((rmsSqPerFrame ns sr fps).getD i 0) θ)) ∧
    ((rawOpenOf ns sr fps θ)[i]? = some true ↔
      (θ : ℝ) < Real.sqrt (((rmsSqPerFrame ns sr fps).getD i 0 : ℚ) : ℝ)) ∧
    ((rmsSqPerFrame ns sr fps).getD i 0 = θ ^ 2 →
      (rawOpenOf ns sr fps θ)[i]? = some false) ∧
    (∀ k : ℕ, (rawOpenOf ns sr fps θ)[k]? = some true →
      (applyHysteresis m (rawOpenOf ns sr fps θ))[k]? = some true) := by
  have hitem : (rawOpenOf ns sr fps θ)[i]?
      = some (rmsGtThreshold ((rmsSqPerFrame ns sr fps).getD i 0) θ) := by
    unfold rawOpenOf markOpen
    rw [List.getElem?_map, List.getElem?_eq_getElem hi,
      List.getD_eq_getElem _ _ hi]
    rfl
  refine ⟨hitem, ?_, ?_,
    fun k hk => applyHysteresis_mono m (rawOpenOf ns sr fps θ) k hk⟩
  · rw [hitem]
    simp only [Option.some.injEq]
    exact rmsGtThreshold_iff_sqrt _ θ
  · intro heq
    rw [hitem, heq]
    have h1 : ¬ (θ < 0) := by linarith
    have h2 : ¬ (θ ^ 2 < θ ^ 2) := lt_irrefl _
    simp [rmsGtThreshold, h1, h2]

/-- Claim C4, witness: a bin whose mean square is exactly the squared
threshold (RMS = threshold = 1/2) is classified closed. -/
theorem claim_C4_witness :
    (rawOpenOf [1/2] 1 1 (1/2))[0]? = some false :=
  (claim_C4_theorem [1/2] 1 1 (1/2) 2 (by norm_num) 0
      (by with_unfolding_all decide)).2.2.1
    (by with_unfolding_all decide)

/-! ## Character asset store (`src/utils/character_assets.py`) -/

def VALID_EMOTIONS : List String :=
  ["normal", "happy", "angry", "sad", "surprised"]

/-- An image loaded from disk and resized; the pixel contents are
abstracted to the source path plus the target height, which is all the
key-presence claims depend on. -/
structure LoadedImage where
  path : String
  height : ℕ
  deriving DecidableEq

/-- `CharacterFrames` (lines 22-26): two emotion-keyed sprite mappings,
represented as association lists. -/
structure CharacterFrames where
  mouth_closed : List (String × LoadedImage)
  mouth_open : List (String × LoadedImage)
  deriving DecidableEq

/-- Which sprite files are present: whether the structured assets
directory exists, and the file names inside it. -/
structure AssetFS where
  dirExists : Bool
  files : List String
  deriving DecidableEq

/-- `_load_and_resize` (lines 29-35). -/
def load_and_resize (p : String) (targetHeight : ℕ) : LoadedImage :=
  ⟨p, targetHeight⟩

def addClosed (fr : CharacterFrames) (emotion : String)
    (img : LoadedImage) : CharacterFrames :=
  ⟨fr.mouth_closed ++ [(emotion, img)], fr.mouth_open⟩

def addOpen (fr : CharacterFrames) (emotion : String)
    (img : LoadedImage) : CharacterFrames :=
  ⟨fr.mouth_closed, fr.mouth_open ++ [(emotion, img)]⟩

/-- `_load_legacy_fallback` (lines 96-111): the legacy single image is
installed for both mouth states of every emotion not already present. -/
def load_legacy_fallback (legacyImage : String) (target : ℕ)
    (frames : CharacterFrames) : CharacterFrames :=
  let img := load_and_resize legacyImage target
  VALID_EMOTIONS.foldl (fun fr emotion =>
    let fr2 := if (fr.mouth_closed.lookup emotion).isNone then
        addClosed fr emotion img else fr
    if (fr2.mouth_open.lookup emotion).isNone then
      addOpen fr2 emotion img else fr2) frames

/-- `load_character_assets` (lines 38-93): structured load when the
directory exists — for each of the five emotions, whichever of the two
mouth-state files exist are loaded — falling back to the legacy image
when the directory is missing, or when `normal` is missing from
`mouth_closed` after the structured load (only `mouth_closed` is
checked). -/
def load_character_assets (fs : AssetFS) (legacyImage : String)
    (target : ℕ) : CharacterFrames :=
  if fs.dirExists then
    let frames := VALID_EMOTIONS.foldl (fun fr emotion =>
      let fr2 := if (emotion ++ "_closed.png") ∈ fs.files then
          addClosed fr emotion
            (load_and_resize (emotion ++ "_closed.png") target)
        else fr
      if (emotion ++ "_open.png") ∈ fs.files then
        addOpen fr2 emotion (load_and_resize (emotion ++ "_open.png") target)
      else fr2) ⟨[], []⟩
    if (frames.mouth_closed.lookup "normal").isNone then
      load_legacy_fallback legacyImage target frames
    else frames
  else load_legacy_fallback legacyImage target ⟨[], []⟩

/-- The renderer's lookup `d.get(emotion, d["normal"])`
(`video_composer.py` lines 613-620): Python evaluates the default
argument `d["normal"]` first, so a missing `normal` key raises
`KeyError` (modelled `none`) whatever emotion is requested. -/
def dictGetWithNormalFallback (d : List (String × LoadedImage))
    (emotion : String) : Option LoadedImage :=
  match d.lookup "normal" with
  | none => none
  | some fallback => some ((d.lookup emotion).getD fallback)

/-- Claim C5, evaluated at the failing sprite-file combination.  When the
structured assets directory exists with `normal_closed.png` present but
`normal_open.png` absent, the loader's fallback guard (line 80, which
checks only `mouth_closed`) does not fire, so `mouth_open` has no
`normal` key, and the renderer's lookup `mouth_open.get(emotion,
mouth_open["normal"])` raises `KeyError` for every requested emotion:
the claimed guarantee fails for this file combination. -/
theorem claim_C5_theorem :
    (load_character_assets ⟨true, ["normal_closed.png"]⟩ "ririn.png"
        453).mouth_closed.lookup "normal"
      = some (load_and_resize "normal_closed.png" 453) ∧
    (load_character_assets ⟨true, ["normal_closed.png"]⟩ "ririn.png"
        453).mouth_open.lookup "normal" = none ∧
    dictGetWithNormalFallback
      (load_character_assets ⟨true, ["normal_closed.png"]⟩ "ririn.png"
        453).mouth_open "happy" = none := by
  with_unfolding_all decide

/-! ## Data model (`src/models.py`) -/

/-- `DialogueLine` (lines 7-12): exactly the fields `speaker`, `text`
and `emotion` — the dataclass declares no `shorts_skip` field, and
`ScriptData.from_dict` sets none. -/
structure DialogueLine where
  speaker : String
  text : String
  emotion : String
  deriving DecidableEq

/-- Python attribute access `line.shorts_skip`: since `DialogueLine`
declares no such field and none is ever assigned, the access raises
`AttributeError`, modelled by `none`. -/
def DialogueLine.shorts_skip_attr (_ : DialogueLine) : Option Bool := none

/-! ## Ending clip and timeline assembly
(`src/generators/video_composer.py`) -/

/-- The ending timing constants `ENDING_FADE_IN`, `ENDING_FADE_OUT` and
`ENDING_VOICE_GAP` imported from `src.config`; their numeric values are
not defined in the sources at hand, so they are carried as parameters. -/
structure EndingConfig where
  fadeIn : ℚ
  fadeOut : ℚ
  gap : ℚ
  deriving DecidableEq

/-- Which of the four ending voice files exist on disk, with the
duration of each existing file. -/
structure EndingEnv where
  callTsunoDur : Option ℚ
  callMeganeDur : Option ℚ
  voiceTsunoDur : Option ℚ
  voiceMeganeDur : Option ℚ
  deriving DecidableEq

/-- The audio timeline computed by `_create_ending_clip`
(lines 294-322). -/
structure EndingTimeline where
  callDur : ℚ
  tsunoStart : ℚ
  tsunoDur : ℚ
  meganeStart : ℚ
  meganeDur : ℚ
  fadeOutStart : ℚ
  duration : ℚ
  deriving DecidableEq

/-- `_create_ending_clip` (lines 271-322), timing part.  Returns `none`
(ending skipped, with a log warning) when the mandatory call voice
`ENDING_CALL_VOICE_TSUNO_PATH` is missing (lines 286-289).  Otherwise
`tsuno_start = FADE_IN + call_dur + GAP`,
`megane_start = tsuno_start + tsuno_dur + GAP`, the fade-out starts
0.5 s after the megane line begins, and the total duration is
`fade_out_start + ENDING_FADE_OUT + 0.5` (lines 319-322) — the megane
line's own duration is not part of the sum. -/
def create_ending_clip (cfg : EndingConfig) (env : EndingEnv) :
    Option EndingTimeline :=
  match env.callTsunoDur with
  | none => none
  | some callDur =>
    let tsunoStart := cfg.fadeIn + callDur + cfg.gap
    let tsunoDur := match env.voiceTsunoDur with
      | some d => d
      | none => 0
    let meganeStart := tsunoStart + tsunoDur + cfg.gap
    let meganeDur := match env.voiceMeganeDur with
      | some d => d
      | none => 0
    let fadeOutStart := meganeStart + 1/2
    some ⟨callDur, tsunoStart, tsunoDur, meganeStart, meganeDur,
      fadeOutStart, fadeOutStart + cfg.fadeOut + 1/2⟩

/-- One member of the final `concatenate_videoclips` list. -/
inductive TimelineClip where
  | openingClip (duration : ℚ)
  | sceneClip (line : DialogueLine) (duration : ℚ)
  | endingClip (duration : ℚ)
  deriving DecidableEq

def clipDuration : TimelineClip → ℚ
  | .openingClip d => d
  | .sceneClip _ d => d
  | .endingClip d => d

/-- The inputs `compose_landscape` reads besides the dialogue: the
episode title, whether the opening logo file exists, `OPENING_DURATION`,
and the ending configuration and voice files. -/
structure ComposeEnv where
  title : String
  openingLogoExists : Bool
  openingDuration : ℚ
  cfg : EndingConfig
  ending : EndingEnv
  deriving DecidableEq

/-- The scene loop (lines 704-810): for each `(line, audio_path)` pair
of `zip(dialogue, audio_paths)` one scene is built with
`with_duration(duration)` where `duration = audio.duration`, and its
audio attached. -/
def sceneClips (dialogue : List DialogueLine) (audioDurs : List ℚ) :
    List TimelineClip :=
  (dialogue.zip audioDurs).map (fun p => .sceneClip p.1 p.2)

/-- `compose_landscape` (lines 697-827), timeline structure: optional
opening (appended when the title is non-empty and the opening logo
exists, lines 700-702), then the scenes in dialogue order, then the
ending unless `_create_ending_clip` returned `None` (lines 812-815);
`concatenate_videoclips` plays them back-to-back and
`write_videofile` is reached unconditionally (lines 817-827). -/
def compose_landscape (env : ComposeEnv) (dialogue : List DialogueLine)
    (audioDurs : List ℚ) : List TimelineClip :=
  (if env.title ≠ "" ∧ env.openingLogoExists then
    [TimelineClip.openingClip env.openingDuration] else [])
  ++ sceneClips dialogue audioDurs
  ++ (match create_ending_clip env.cfg env.ending with
      | some e => [TimelineClip.endingClip e.duration]
      | none => [])

def totalDuration (clips : List TimelineClip) : ℚ :=
  (clips.map clipDuration).sum

/-- Claim C6, counterexample: with the mandatory call voice absent the
pipeline raises nothing — `_create_ending_clip` returns `None`, the
ending is skipped, and the render still writes an output video; here a
one-scene timeline of 2 s with no ending clip in it. -/
theorem claim_C6_counterexample :
    create_ending_clip ⟨1, 1, 1/2⟩ ⟨none, none, none, none⟩ = none ∧
    compose_landscape ⟨"", false, 7, ⟨1, 1, 1/2⟩, ⟨none, none, none, none⟩⟩
        [⟨"tsuno", "hi", "normal"⟩] [2]
      = [TimelineClip.sceneClip ⟨"tsuno", "hi", "normal"⟩ 2] := by
  with_unfolding_all decide

/-- Claim C6 (amended): if the mandatory ending voice asset is missing,
the ending is skipped entirely rather than raising: the assembled
timeline is exactly the optional opening followed by the scenes, it
contains no ending clip, and the render continues to produce an output
video. -/
theorem claim_C6_theorem (env : ComposeEnv) (dialogue : List DialogueLine)
    (audioDurs : List ℚ) (h : env.ending.callTsunoDur = none) :
    compose_landscape env dialogue audioDurs
      = (if env.title ≠ "" ∧ env.openingLogoExists then
          [TimelineClip.openingClip env.openingDuration] else [])
        ++ sceneClips dialogue audioDurs ∧
    ∀ d : ℚ, TimelineClip.endingClip d ∉ compose_landscape env dialogue audioDurs := by
  have he : create_ending_clip env.cfg env.ending = none := by
    unfold create_ending_clip
    rw [h]
  constructor
  · unfold compose_landscape
    rw [he]
    simp
  · intro d hd
    unfold compose_landscape at hd
    rw [he] at hd
    simp only [List.append_nil, List.mem_append] at hd
    rcases hd with hd | hd
    · split at hd <;> simp at hd
    · unfold sceneClips at hd
      simp at hd

/-- Claim C6, witness: an opening and one scene, no ending voice. -/
theorem claim_C6_witness :
    compose_landscape ⟨"t", true, 7, ⟨1, 1, 1/2⟩, ⟨none, some 1, some 1, some 1⟩⟩
        [⟨"megane", "yo", "happy"⟩] [3]
      = (if ("t" : String) ≠ "" ∧ true then [TimelineClip.openingClip 7] else [])
        ++ sceneClips [⟨"megane", "yo", "happy"⟩] [3] ∧
    ∀ d : ℚ, TimelineClip.endingClip d ∉
      compose_landscape ⟨"t", true, 7, ⟨1, 1, 1/2⟩, ⟨none, some 1, some 1, some 1⟩⟩
        [⟨"megane", "yo", "happy"⟩] [3] :=
  claim_C6_theorem ⟨"t", true, 7, ⟨1, 1, 1/2⟩, ⟨none, some 1, some 1, some 1⟩⟩
    [⟨"megane", "yo", "happy"⟩] [3] rfl

/-- Modelled from the claim's words (claim C7, spec §4.5): total ending
duration = call-to-action voice + gap + character-A closing line + gap +
character-B closing line + fixed fade-out window + fixed trailing hold
(0.5 s in the source). -/
def endingDurationClaimedSpec (cfg : EndingConfig) (env : EndingEnv) :
    Option ℚ :=
  match env.callTsunoDur with
  | none => none
  | some callDur =>
      some (callDur + cfg.gap
        + (match env.voiceTsunoDur with | some d => d | none => 0)
        + cfg.gap
        + (match env.voiceMeganeDur with | some d => d | none => 0)
        + cfg.fadeOut + 1/2)

/-- Claim C7, counterexample.  With fade-in 1 s, fade-out 1 s, gap
0.5 s, call voice 1 s, character-A line 1 s and character-B line 10 s,
the code builds an ending of 6 s
(`fade_in + call + gap + tsuno + gap + 0.5 + fade_out + 0.5`), while the
claimed sum is 14.5 s: character B's closing-line duration never enters
the code's total, and the fade-in window plus a 0.5 s offset do. -/
theorem claim_C7_counterexample :
    (create_ending_clip ⟨1, 1, 1/2⟩ ⟨some 1, none, some 1, some 10⟩).map
        EndingTimeline.duration = some 6 ∧
    endingDurationClaimedSpec ⟨1, 1, 1/2⟩ ⟨some 1, none, some 1, some 10⟩
        = some (29/2) ∧
    (6 : ℚ) ≠ 29/2 := by
  refine ⟨?_, ?_, by norm_num⟩ <;> with_unfolding_all decide

/-- Claim C7 (amended): when the ending clip is built, its total
duration is `fade_in + call_voice + gap + character_A_line + gap + 0.5 +
fade_out + 0.5`: the sequence runs back-to-back only up to the start of
character B's closing line; the fade-out window begins a fixed 0.5 s
after that start, so character B's line duration does not extend the
clip, while the fixed fade-in window and the 0.5 s trailing hold are
included. -/
theorem claim_C7_theorem (cfg : EndingConfig) (env : EndingEnv)
    (callDur : ℚ) (h : env.callTsunoDur = some callDur) :
    (create_ending_clip cfg env).map EndingTimeline.duration
      = some (cfg.fadeIn + callDur + cfg.gap + env.voiceTsunoDur.getD 0
          + cfg.gap + 1/2 + cfg.fadeOut + 1/2) := by
  unfold create_ending_clip
  rw [h]
  cases env.voiceTsunoDur <;> simp [Option.getD]

/-- Claim C7, witness: fade-in 1, fade-out 2, gap 0.5, call voice 2 s,
no character-A line file: total 7 s. -/
theorem claim_C7_witness :
    (create_ending_clip ⟨1, 2, 1/2⟩ ⟨some 2, some 1, none, some 5⟩).map
        EndingTimeline.duration = some 7 :=
  (claim_C7_theorem ⟨1, 2, 1/2⟩ ⟨some 2, some 1, none, some 5⟩ 2 rfl).trans
    (by norm_num)

theorem sceneClips_durations (dialogue : List DialogueLine)
    (audioDurs : List ℚ) :
    (sceneClips dialogue audioDurs).map clipDuration
      = (dialogue.zip audioDurs).map Prod.snd := by
  unfold sceneClips
  rw [List.map_map]
  rfl

/-- Claim C8: the scene clips appear in dialogue order carrying exactly
the matching audio durations (no extension, no trimming), and the total
duration of the concatenated timeline equals (opening duration if
present) + the sum of per-scene audio durations + (ending duration if
present) — exactly, in the rational model of the timeline, hence within
any rounding tolerance. -/
theorem claim_C8_theorem (env : ComposeEnv) (dialogue : List DialogueLine)
    (audioDurs : List ℚ) (h : dialogue.length = audioDurs.length) :
    ((compose_landscape env dialogue audioDurs).filterMap (fun c =>
        match c with
        | .sceneClip l d => some (l, d)
        | _ => none))
      = dialogue.zip audioDurs ∧
    (dialogue.zip audioDurs).map Prod.snd = audioDurs ∧
    totalDuration (compose_landscape env dialogue audioDurs)
      = (if env.title ≠ "" ∧ env.openingLogoExists then
          env.openingDuration else 0)
        + audioDurs.sum
        + ((create_ending_clip env.cfg env.ending).map
            EndingTimeline.duration).getD 0 := by
  have hsnd : (dialogue.zip audioDurs).map Prod.snd = audioDurs :=
    List.map_snd_zip dialogue audioDurs (le_of_eq h.symm)
  refine ⟨?_, hsnd, ?_⟩
  · unfold compose_landscape
    rw [List.filterMap_append, List.filterMap_append]
    have h1 : (List.filterMap (fun c =>
        match c with
        | TimelineClip.sceneClip l d => some (l, d)
        | _ => none)
        (if env.title ≠ "" ∧ env.openingLogoExists then
          [TimelineClip.openingClip env.openingDuration] else []))
        = [] := by
      split <;> rfl
    have h2 : (List.filterMap (fun c =>
        match c with
        | TimelineClip.sceneClip l d => some (l, d)
        | _ => none)
        (match create_ending_clip env.cfg env.ending with
          | some e => [TimelineClip.endingClip e.duration]
          | none => []))
        = [] := by
      cases create_ending_clip env.cfg env.ending <;> rfl
    rw [h1, h2, List.append_nil, List.nil_append]
    unfold sceneClips
    rw [List.filterMap_map]
    have : ∀ p : DialogueLine × ℚ,
        ((fun c =>
          match c with
          | TimelineClip.sceneClip l d => some (l, d)
          | _ => none) ∘ fun p : DialogueLine × ℚ =>
            TimelineClip.sceneClip p.1 p.2) p = some p := by
      intro p
      rfl
    rw [List.filterMap_congr (fun p _ => this p)]
    exact List.filterMap_some _
  · unfold totalDuration compose_landscape
    rw [List.map_append, List.map_append, List.sum_append, List.sum_append,
      sceneClips_durations, hsnd]
    congr 1
    · congr 1
      split <;> simp [clipDuration]
    · cases create_ending_clip env.cfg env.ending <;> simp [clipDuration]

/-- Claim C8, witness: opening present, two scenes of 1 s and 1/2 s,
ending voice present. -/
theorem claim_C8_witness :
    ((compose_landscape
        ⟨"t", true, 7, ⟨1, 1, 1/2⟩, ⟨some 1, none, none, none⟩⟩
        [⟨"tsuno", "a", "happy"⟩, ⟨"megane", "b", "normal"⟩]
        [1, 1/2]).filterMap (fun c =>
          match c with
          | .sceneClip l d => some (l, d)
          | _ => none))
      = (([⟨"tsuno", "a", "happy"⟩, ⟨"megane", "b", "normal"⟩] :
          List DialogueLine).zip [(1 : ℚ), 1/2]) ∧
    ((([⟨"tsuno", "a", "happy"⟩, ⟨"megane", "b", "normal"⟩] :
        List DialogueLine).zip
        [(1 : ℚ), 1/2]).map Prod.snd = [(1 : ℚ), 1/2]) ∧
    totalDuration (compose_landscape
        ⟨"t", true, 7, ⟨1, 1, 1/2⟩, ⟨some 1, none, none, none⟩⟩
        [⟨"tsuno", "a", "happy"⟩, ⟨"megane", "b", "normal"⟩]
        [1, 1/2])
      = (if ("t" : String) ≠ "" ∧ true then (7 : ℚ) else 0)
        + [(1 : ℚ), 1/2].sum
        + ((create_ending_clip ⟨1, 1, 1/2⟩
            ⟨some 1, none, none, none⟩).map EndingTimeline.duration).getD 0 :=
  claim_C8_theorem ⟨"t", true, 7, ⟨1, 1, 1/2⟩, ⟨some 1, none, none, none⟩⟩
    [⟨"tsuno", "a", "happy"⟩, ⟨"megane", "b", "normal"⟩] [1, 1/2] rfl

/-! ## Portrait over-length filter (`compose_portrait`, lines 1102-1121) -/

/-- The estimate `estimated_total = total_audio_dur + OPENING_DURATION +
10.0` (line 1106). -/
def estimatedTotal (openingDuration : ℚ) (audioDurs : List ℚ) : ℚ :=
  audioDurs.sum + openingDuration + 10

/-- The comprehension `[(line, path) for line, path in
zip(dialogue, audio_paths) if not line.shorts_skip]` (lines 1109-1112):
each element evaluates `line.shorts_skip`, which raises
`AttributeError` (`none`) because `DialogueLine` has no such field. -/
def filterNotShortsSkip :
    List (DialogueLine × ℚ) → Option (List (DialogueLine × ℚ))
  | [] => some []
  | (l, p) :: rest =>
    match l.shorts_skip_attr with
    | none => none
    | some b =>
      match filterNotShortsSkip rest with
      | none => none
      | some r => some (if b then r else (l, p) :: r)

/-- The over-length filter of `compose_portrait` (lines 1102-1121): only
when the estimated total exceeds the Shorts limit are the
`shorts_skip` lines dropped (keeping the paired audio paths, preserving
order); otherwise dialogue and audio pass through unchanged. -/
def compose_portrait_filter (openingDuration shortsMax : ℚ)
    (dialogue : List DialogueLine) (audioDurs : List ℚ) :
    Option (List DialogueLine × List ℚ) :=
  if shortsMax < estimatedTotal openingDuration audioDurs then
    match filterNotShortsSkip (dialogue.zip audioDurs) with
    | none => none
    | some kept => some (kept.map Prod.fst, kept.map Prod.snd)
  else some (dialogue, audioDurs)

/-- Claim C9, evaluated at the failing input.  `DialogueLine`
(`models.py` lines 7-12) declares only `speaker`, `text` and `emotion` —
no `shorts_skip` field — yet the portrait over-length filter reads
`line.shorts_skip` (line 1111).  With a single 200 s line, the estimated
total 217 s exceeds the 180 s Shorts limit, the filter runs, and the
attribute access raises `AttributeError`: it is not well-defined for any
dialogue line. -/
theorem claim_C9_theorem :
    estimatedTotal 7 [200] = 217 ∧ (180 : ℚ) < 217 ∧
    compose_portrait_filter 7 180 [⟨"tsuno", "a", "normal"⟩] [200]
      = none := by
  refine ⟨?_, by norm_num, ?_⟩ <;> with_unfolding_all decide

/-! ## Brightness adjustment (`_apply_brightness`, lines 551-556) -/

/-- An RGBA pixel (channel values 0-255 in the uint8 arrays). -/
structure RGBA where
  r : ℕ
  g : ℕ
  b : ℕ
  a : ℕ
  deriving DecidableEq

/-- One colour channel under `np.clip(c * factor, 0, 255)` followed by
`astype(np.uint8)`; the clipped value is nonnegative, so the uint8 cast
truncation is the floor. -/
def clipScale (c : ℕ) (factor : ℚ) : ℕ :=
  (⌊min (max ((c : ℚ) * factor) 0) 255⌋).toNat

/-- `_apply_brightness`: `result = image_array.copy().astype(float32)`,
then only `result[:, :, :3]` is scaled and clipped while the alpha
channel is carried through, and the result is cast back to uint8.  The
`.copy()` leaves the input array untouched, which the pure function
models. -/
def apply_brightness (img : List (List RGBA)) (factor : ℚ) :
    List (List RGBA) :=
  img.map (fun row => row.map (fun p =>
    ⟨clipScale p.r factor, clipScale p.g factor, clipScale p.b factor,
      p.a⟩))

/-- Claim C10: for every RGBA image and every brightness factor,
`_apply_brightness` preserves the image dimensions, scales and clips
only the RGB channels, and returns each pixel's alpha channel unchanged;
the input itself is left unmodified (the source copies the array and the
embedding is a pure function of it). -/
theorem claim_C10_theorem (img : List (List RGBA)) (factor : ℚ)
    (i j : ℕ) (row : List RGBA) (p : RGBA)
    (hrow : img[i]? = some row) (hp : row[j]? = some p) :
    (apply_brightness img factor).length = img.length ∧
    ∃ row2, (apply_brightness img factor)[i]? = some row2 ∧
      row2.length = row.length ∧
      row2[j]? = some ⟨clipScale p.r factor, clipScale p.g factor,
        clipScale p.b factor, p.a⟩ ∧
      (row2[j]?).map RGBA.a = some p.a := by
  refine ⟨by simp [apply_brightness], ?_⟩
  refine ⟨row.map (fun q => ⟨clipScale q.r factor, clipScale q.g factor,
    clipScale q.b factor, q.a⟩), ?_, by simp, ?_, ?_⟩
  · unfold apply_brightness
    rw [List.getElem?_map, hrow]
    rfl
  · rw [List.getElem?_map, hp]
    rfl
  · rw [List.getElem?_map, hp]
    rfl

/-- Claim C10, witness: a one-pixel image dimmed to half brightness
keeps its alpha 77 while the RGB channels halve. -/
theorem claim_C10_witness :
    (apply_brightness [[⟨100, 200, 50, 77⟩]] (1/2)).length = 1 ∧
    ∃ row2, (apply_brightness [[⟨100, 200, 50, 77⟩]] (1/2))[0]?
        = some row2 ∧
      row2.length = 1 ∧
      row2[0]? = some ⟨clipScale 100 (1/2), clipScale 200 (1/2),
        clipScale 50 (1/2), 77⟩ ∧
      (row2[0]?).map RGBA.a = some 77 :=
  claim_C10_theorem [[⟨100, 200, 50, 77⟩]] (1/2) 0 0 [⟨100, 200, 50, 77⟩]
    ⟨100, 200, 50, 77⟩ rfl rfl
